import Mathlib

/-!
Shallow embedding of `qan.py` (deep-person-reid, QAN video re-identification
training script) and verification of the frozen claims about it.

Tensor values are modelled in exact arithmetic: the pooling / softmax pipeline
over `ℝ` (the softmax uses `Real.exp`, as `F.softmax` does), and the purely
rational parts (distance matrix, loss combination, rank-1 bookkeeping) over `ℚ`.
A tensor of shape `[B,S,D]` is a function `Fin B → Fin S → Fin D → ℝ`.
-/

namespace QanPy

/-- Denominator of the softmax over one tracklet's `S` quality scores:
`scores = F.softmax(scores, dim=1)` in `train` (qan.py:247) and `test`
(qan.py:329). -/
noncomputable def expSum {S : ℕ} (Q : Fin S → ℝ) : ℝ :=
  ∑ j, Real.exp (Q j)

/-- The softmax-normalized quality weight of frame `i` in a tracklet
(qan.py:247, qan.py:329). -/
noncomputable def softmax {S : ℕ} (Q : Fin S → ℝ) (i : Fin S) : ℝ :=
  Real.exp (Q i) / expSum Q

lemma expSum_pos {S : ℕ} (hS : 0 < S) (Q : Fin S → ℝ) : 0 < expSum Q := by
  have hne : (Finset.univ : Finset (Fin S)).Nonempty :=
    ⟨⟨0, hS⟩, Finset.mem_univ _⟩
  exact Finset.sum_pos (fun j _ => Real.exp_pos (Q j)) hne

lemma softmax_nonneg {S : ℕ} (Q : Fin S → ℝ) (i : Fin S) : 0 ≤ softmax Q i :=
  div_nonneg (Real.exp_pos (Q i)).le (expSum_pos i.pos Q).le

lemma softmax_sum_one {S : ℕ} (hS : 0 < S) (Q : Fin S → ℝ) :
    ∑ i, softmax Q i = 1 := by
  unfold softmax
  rw [← Finset.sum_div]
  exact div_self (ne_of_gt (expSum_pos hS Q))

/-- Embedding of `features = (features * scores).sum(1)` after broadcasting the normalized
scores over the feature dimension (qan.py:263-265, qan.py:335-336): the
quality-weighted sum `W ∈ ℝ^{B×D}`. -/
noncomputable def qanWeightedSum {B S D : ℕ} (F : Fin B → Fin S → Fin D → ℝ)
    (Q : Fin B → Fin S → ℝ) (b : Fin B) (d : Fin D) : ℝ :=
  ∑ s, F b s d * softmax (Q b) s

/-- Embedding of `scores = scores.sum(1)` (qan.py:266, qan.py:337): the normalizer
`N ∈ ℝ^{B×D}`, each entry the sum over `S` of the broadcast weights (the
broadcast makes the entry independent of `d`, but the shape is `[B,D]`). -/
noncomputable def qanNormalizer {B S D : ℕ} (Q : Fin B → Fin S → ℝ)
    (b : Fin B) (d : Fin D) : ℝ :=
  ∑ s, softmax (Q b) s

/-- Embedding of `features = features / scores` (qan.py:267, qan.py:338): the QAN pooled
descriptor `W / N`. -/
noncomputable def qanPool {B S D : ℕ} (F : Fin B → Fin S → Fin D → ℝ)
    (Q : Fin B → Fin S → ℝ) (b : Fin B) (d : Fin D) : ℝ :=
  qanWeightedSum F Q b d / qanNormalizer Q b (d := d)

/-- Embedding of `features = torch.mean(features, 1)` (qan.py:333). -/
noncomputable def avgPool {B S D : ℕ} (F : Fin B → Fin S → Fin D → ℝ)
    (b : Fin B) (d : Fin D) : ℝ :=
  (∑ s, F b s d) / (S : ℝ)

/-- Embedding of `features, _ = torch.max(features, 1)` (qan.py:340); `torch.max` over a
dimension requires that dimension nonempty. -/
noncomputable def maxPool {B S D : ℕ} (hS : 0 < S)
    (F : Fin B → Fin S → Fin D → ℝ) (b : Fin B) (d : Fin D) : ℝ :=
  Finset.univ.sup' ⟨⟨0, hS⟩, Finset.mem_univ _⟩ (fun s => F b s d)

/-- The `--pool` configuration flag: `choices=['avg', 'max', 'qan']`
(qan.py:67). -/
inductive Pool where
  | avg : Pool
  | max : Pool
  | qan : Pool
deriving DecidableEq

/-- The pooling dispatch in `test` (qan.py:332-340): `if pool == 'avg'` take the
mean, `elif pool == 'qan'` take the quality-weighted pool, `else` take the max. -/
noncomputable def poolFeatures {B S D : ℕ} (hS : 0 < S) (p : Pool)
    (F : Fin B → Fin S → Fin D → ℝ) (Q : Fin B → Fin S → ℝ)
    (b : Fin B) (d : Fin D) : ℝ :=
  match p with
  | .avg => avgPool F b d
  | .qan => qanPool F Q b d
  | .max => maxPool hS F b d

/-- The sequence descriptor computed in `train` (qan.py:262-267) and fed to the
second forward pass `model(features)` (qan.py:268).  `train` receives no
pooling-mode argument: it always applies the quality weighting. -/
noncomputable def trainSeqDescriptor {B S D : ℕ} (F : Fin B → Fin S → Fin D → ℝ)
    (Q : Fin B → Fin S → ℝ) (b : Fin B) (d : Fin D) : ℝ :=
  (∑ s, F b s d * softmax (Q b) s) / (∑ s, softmax (Q b) s)

lemma sum_mul_le_sup {S : ℕ} (hne : (Finset.univ : Finset (Fin S)).Nonempty)
    (x w : Fin S → ℝ) (hw : ∀ s, 0 ≤ w s) (hsum : ∑ s, w s = 1) :
    ∑ s, x s * w s ≤ Finset.univ.sup' hne x := by
  calc ∑ s, x s * w s
      ≤ ∑ s, (Finset.univ.sup' hne x) * w s :=
        Finset.sum_le_sum (fun i _ =>
          mul_le_mul_of_nonneg_right (Finset.le_sup' x (Finset.mem_univ i)) (hw i))
    _ = (Finset.univ.sup' hne x) * ∑ s, w s := by rw [← Finset.mul_sum]
    _ = Finset.univ.sup' hne x := by rw [hsum, mul_one]

lemma inf_le_sum_mul {S : ℕ} (hne : (Finset.univ : Finset (Fin S)).Nonempty)
    (x w : Fin S → ℝ) (hw : ∀ s, 0 ≤ w s) (hsum : ∑ s, w s = 1) :
    Finset.univ.inf' hne x ≤ ∑ s, x s * w s := by
  calc Finset.univ.inf' hne x
      = (Finset.univ.inf' hne x) * ∑ s, w s := by rw [hsum, mul_one]
    _ = ∑ s, (Finset.univ.inf' hne x) * w s := by rw [← Finset.mul_sum]
    _ ≤ ∑ s, x s * w s :=
        Finset.sum_le_sum (fun i _ =>
          mul_le_mul_of_nonneg_right (Finset.inf'_le x (Finset.mem_univ i)) (hw i))

lemma qanPool_eq_weighted_sum {B S D : ℕ} (hS : 0 < S)
    (F : Fin B → Fin S → Fin D → ℝ) (Q : Fin B → Fin S → ℝ)
    (b : Fin B) (d : Fin D) :
    qanPool F Q b d = ∑ s, F b s d * softmax (Q b) s := by
  unfold qanPool qanNormalizer qanWeightedSum
  rw [softmax_sum_one hS (Q b), div_one]

/-- C1: for every batch of frame features `F : [B,S,D]` and quality scores
`Q : [B,S]` (sequence length `S+1 ≥ 1`), the QAN pooled descriptor equals the
sum over `S` of the softmax weights (broadcast to `D`) multiplied with `F`,
divided by the sum over `S` of the broadcast weights; and each output entry is
a convex combination of the tracklet's frame features, bounded per dimension by
their min and max. -/
theorem qan_pool_convex_combination {B S D : ℕ}
    (F : Fin B → Fin (S+1) → Fin D → ℝ) (Q : Fin B → Fin (S+1) → ℝ)
    (b : Fin B) (d : Fin D) :
    qanPool F Q b d =
      (∑ s, F b s d * softmax (Q b) s) / (∑ s, softmax (Q b) s) ∧
    (∃ w : Fin (S+1) → ℝ, (∀ s, 0 ≤ w s) ∧ (∑ s, w s) = 1 ∧
      qanPool F Q b d = ∑ s, F b s d * w s) ∧
    Finset.univ.inf' ⟨0, Finset.mem_univ _⟩ (fun s => F b s d) ≤ qanPool F Q b d ∧
    qanPool F Q b d ≤ Finset.univ.sup' ⟨0, Finset.mem_univ _⟩ (fun s => F b s d) := by
  have hS : 0 < S + 1 := S.succ_pos
  have hpool := qanPool_eq_weighted_sum hS F Q b d
  have hw : ∀ s, 0 ≤ softmax (Q b) s := softmax_nonneg (Q b)
  have hsum : ∑ s, softmax (Q b) s = 1 := softmax_sum_one hS (Q b)
  refine ⟨rfl, ⟨softmax (Q b), hw, hsum, hpool⟩, ?_, ?_⟩
  · rw [hpool]
    exact inf_le_sum_mul _ (fun s => F b s d) (softmax (Q b)) hw hsum
  · rw [hpool]
    exact sum_mul_le_sup _ (fun s => F b s d) (softmax (Q b)) hw hsum

/-- C4: in QAN pooling the normalizer (sum over `S` of the softmax-normalized,
`D`-broadcast weights) is a `[B,D]` tensor whose every entry equals `1`, so the
final division `W / N` returns the weighted sum `W` unchanged. -/
theorem qan_normalizer_is_one {B S D : ℕ}
    (F : Fin B → Fin (S+1) → Fin D → ℝ) (Q : Fin B → Fin (S+1) → ℝ)
    (b : Fin B) (d : Fin D) :
    qanNormalizer Q b (d := d) = 1 ∧
    qanPool F Q b d = qanWeightedSum F Q b d := by
  have h1 : qanNormalizer Q b (d := d) = 1 := softmax_sum_one S.succ_pos (Q b)
  exact ⟨h1, by unfold qanPool; rw [h1, div_one]⟩

/-- C8: for a single-frame tracklet (`S = 1`) each of the three pooling modes
(`avg`, `max`, `qan`) returns the single frame's feature vector unchanged. -/
theorem pool_single_frame_identity {B D : ℕ} (p : Pool)
    (F : Fin B → Fin 1 → Fin D → ℝ) (Q : Fin B → Fin 1 → ℝ)
    (b : Fin B) (d : Fin D) :
    poolFeatures Nat.one_pos p F Q b d = F b 0 d := by
  cases p with
  | avg =>
      show avgPool F b d = F b 0 d
      unfold avgPool
      rw [Fin.sum_univ_one]
      norm_num
  | max =>
      show maxPool Nat.one_pos F b d = F b 0 d
      unfold maxPool
      refine le_antisymm (Finset.sup'_le _ _ (fun s _ => ?_))
        (Finset.le_sup' (fun s => F b s d) (Finset.mem_univ (0 : Fin 1)))
      rw [Fin.eq_zero s]
  | qan =>
      show qanPool F Q b d = F b 0 d
      rw [qanPool_eq_weighted_sum Nat.one_pos, Fin.sum_univ_one]
      unfold softmax expSum
      rw [Fin.sum_univ_one, div_self (ne_of_gt (Real.exp_pos _)), mul_one]

/-- C9: the `--pool` flag affects only evaluation: the sequence descriptor that
`train` feeds to the second forward pass (qan.py:262-268) is always the
quality-weighted QAN pooled descriptor — `train` receives no pooling-mode
argument, and its descriptor coincides with the `qan` branch of the evaluation
pooling dispatch for every configured mode `p`. -/
theorem train_always_qan_pool {B S D : ℕ} (p : Pool)
    (F : Fin B → Fin (S+1) → Fin D → ℝ) (Q : Fin B → Fin (S+1) → ℝ)
    (b : Fin B) (d : Fin D) :
    trainSeqDescriptor F Q b d = qanPool F Q b d ∧
    trainSeqDescriptor F Q b d = poolFeatures S.succ_pos Pool.qan F Q b d ∧
    (p = Pool.avg ∨ p = Pool.max ∨ p = Pool.qan) := by
  refine ⟨rfl, rfl, ?_⟩
  cases p
  · exact Or.inl rfl
  · exact Or.inr (Or.inl rfl)
  · exact Or.inr (Or.inr rfl)

/-- The evaluation distance matrix (qan.py:382-385):
`distmat = pow(qf,2).sum(1).expand(m,n) + pow(gf,2).sum(1).expand(n,m).t()`
followed by `distmat.addmm_(1, -2, qf, gf.t())`, i.e. entry `[i,j]` is
`‖q_i‖² + ‖g_j‖² − 2·⟨q_i, g_j⟩`. -/
def distmat {m n D : ℕ} (qf : Fin m → Fin D → ℚ) (gf : Fin n → Fin D → ℚ)
    (i : Fin m) (j : Fin n) : ℚ :=
  (∑ d, qf i d ^ 2) + (∑ d, gf j d ^ 2) - 2 * ∑ d, qf i d * gf j d

lemma distmat_eq_sum_sq_sub {m n D : ℕ} (qf : Fin m → Fin D → ℚ)
    (gf : Fin n → Fin D → ℚ) (i : Fin m) (j : Fin n) :
    distmat qf gf i j = ∑ d, (qf i d - gf j d) ^ 2 := by
  unfold distmat
  rw [Finset.mul_sum, ← Finset.sum_add_distrib, ← Finset.sum_sub_distrib]
  exact Finset.sum_congr rfl (fun d _ => by ring)

/-- C5: the evaluation distance matrix (an `m × n` family indexed by
`Fin m × Fin n`) has entry `[i,j]` equal to `‖q_i‖² + ‖g_j‖² − 2·q_i·g_j`; every
entry is nonnegative, and an entry is `0` whenever the gallery vector equals
the query vector. -/
theorem distmat_entries {m n D : ℕ} (qf : Fin m → Fin D → ℚ)
    (gf : Fin n → Fin D → ℚ) (i : Fin m) (j : Fin n) :
    distmat qf gf i j =
      (∑ d, qf i d ^ 2) + (∑ d, gf j d ^ 2) - 2 * ∑ d, qf i d * gf j d ∧
    0 ≤ distmat qf gf i j ∧
    (gf j = qf i → distmat qf gf i j = 0) := by
  refine ⟨rfl, ?_, ?_⟩
  · rw [distmat_eq_sum_sq_sub]
    exact Finset.sum_nonneg (fun d _ => sq_nonneg _)
  · intro h
    rw [distmat_eq_sum_sq_sub, h]
    simp

/-- Witness for C5 at a concrete input: a `1×1` distance matrix over dimension
`1` with the gallery vector equal to the query vector. -/
theorem distmat_entries_witness :
    ((fun _ _ => (3 : ℚ)) : Fin 1 → Fin 1 → ℚ) 0 =
      ((fun _ _ => (3 : ℚ)) : Fin 1 → Fin 1 → ℚ) 0 ∧
    distmat ((fun _ _ => (3 : ℚ)) : Fin 1 → Fin 1 → ℚ)
      ((fun _ _ => (3 : ℚ)) : Fin 1 → Fin 1 → ℚ) 0 0 = 0 :=
  ⟨rfl, (distmat_entries ((fun _ _ => (3 : ℚ)) : Fin 1 → Fin 1 → ℚ)
      ((fun _ _ => (3 : ℚ)) : Fin 1 → Fin 1 → ℚ) 0 0).2.2 rfl⟩

/-- The per-batch loss computation of `train` (qan.py:250-279), with the loss
criteria left opaque (`CrossEntropyLabelSmooth` and `TripletLoss` live outside
this file's source): `cx` is `criterion_xent`, `ch` is `criterion_htri`;
`outputs`/`features`/`pids` are the frame-level logits, embeddings and labels,
`seqOut`/`seqFeat`/`labels` the sequence-level ones.  Returns
`(loss_img, loss_seq, loss)`. -/
def trainBatchLoss {O F L : Type} (htriOnly : Bool)
    (cx : O → L → ℚ) (ch : F → L → ℚ)
    (outputs : O) (features : F) (pids : L)
    (seqOut : O) (seqFeat : F) (labels : L) : ℚ × ℚ × ℚ :=
  let lossImg := if htriOnly then ch features pids
                 else cx outputs pids + ch features pids
  let lossSeq := if htriOnly then ch seqFeat labels
                 else cx seqOut labels + ch seqFeat labels
  (lossImg, lossSeq, lossImg + lossSeq)

/-- C7: the total training loss is the image-level loss plus the sequence-level
loss with no weighting; by default (`htri_only = false`) each level is
cross-entropy plus triplet, and with `--htri-only` each level is the triplet
loss alone. -/
theorem train_loss_structure {O F L : Type} (htriOnly : Bool)
    (cx : O → L → ℚ) (ch : F → L → ℚ)
    (outputs : O) (features : F) (pids : L)
    (seqOut : O) (seqFeat : F) (labels : L) :
    (trainBatchLoss htriOnly cx ch outputs features pids seqOut seqFeat labels).2.2 =
      (trainBatchLoss htriOnly cx ch outputs features pids seqOut seqFeat labels).1 +
      (trainBatchLoss htriOnly cx ch outputs features pids seqOut seqFeat labels).2.1 ∧
    trainBatchLoss false cx ch outputs features pids seqOut seqFeat labels =
      (cx outputs pids + ch features pids, cx seqOut labels + ch seqFeat labels,
       (cx outputs pids + ch features pids) + (cx seqOut labels + ch seqFeat labels)) ∧
    trainBatchLoss true cx ch outputs features pids seqOut seqFeat labels =
      (ch features pids, ch seqFeat labels,
       ch features pids + ch seqFeat labels) := by
  exact ⟨rfl, rfl, rfl⟩

/-- The optimizers `init_optim` can construct (qan.py:81-89). -/
inductive Optim where
  | adam : Optim
  | sgd : Optim
  | rmsprop : Optim
deriving DecidableEq

/-- Embedding of `init_optim` (qan.py:81-89): dispatch on the optimizer name, raising
`KeyError("Unsupported optim: ...")` for any other name. -/
def init_optim (optim : String) : Except String Optim :=
  if optim = "adam" then .ok .adam
  else if optim = "sgd" then .ok .sgd
  else if optim = "rmsprop" then .ok .rmsprop
  else .error ("Unsupported optim: " ++ optim)

/-- The observable milestones of `main` (qan.py:91-222), in source order. -/
inductive MainEvent where
  | initDataset : MainEvent
  | buildTrainLoader : MainEvent
  | buildQueryLoader : MainEvent
  | buildGalleryLoader : MainEvent
  | initModel : MainEvent
  | initCriteria : MainEvent
  | initOptimizer : MainEvent
  | loadCheckpoint : MainEvent
  | runEvaluation : MainEvent
  | runTrainLoop : MainEvent
deriving DecidableEq

/-- The sequence of milestones `main` performs before it either returns or
raises, paired with the raised error (if any): dataset initialization
(qan.py:111), the three data loaders (qan.py:136-154), model (qan.py:158),
loss criteria (qan.py:161-162), then `init_optim` (qan.py:167) which may raise;
on success: optional checkpoint load (qan.py:172-176), then either
evaluation-only (qan.py:181-184) or the training loop (qan.py:192-215). -/
def mainTrace (optim : String) (resume : Bool) (evaluate : Bool) :
    List MainEvent × Option String :=
  let pre : List MainEvent :=
    [.initDataset, .buildTrainLoader, .buildQueryLoader, .buildGalleryLoader,
     .initModel, .initCriteria]
  match init_optim optim with
  | .error e => (pre, some e)
  | .ok _ =>
      let pre' := pre ++ [.initOptimizer] ++ (if resume then [.loadCheckpoint] else [])
      if evaluate then (pre' ++ [.runEvaluation], none)
      else (pre' ++ [.runTrainLoop], none)

/-- Counterexample to C2 as stated: with the invalid optimizer name `"foo"`,
`main` does raise an unsupported-configuration error — but only after the
dataset has been initialized and all three data loaders have been constructed,
not before. -/
theorem invalid_optim_after_dataset_init :
    (mainTrace "foo" false false).2 = some ("Unsupported optim: foo") ∧
    MainEvent.initDataset ∈ (mainTrace "foo" false false).1 ∧
    MainEvent.buildTrainLoader ∈ (mainTrace "foo" false false).1 ∧
    MainEvent.buildQueryLoader ∈ (mainTrace "foo" false false).1 ∧
    MainEvent.buildGalleryLoader ∈ (mainTrace "foo" false false).1 := by
  decide

/-- C2 (amended): if the configured optimizer name is not one of
`{adam, sgd, rmsprop}`, `main` raises a `KeyError`-style unsupported-optim
error at optimizer construction — after the dataset is initialized and the
data loaders are constructed, but before any checkpoint is loaded, before
evaluation, and before any training epoch runs. -/
theorem invalid_optim_fails_before_training (optim : String)
    (resume evaluate : Bool)
    (h : optim ≠ "adam" ∧ optim ≠ "sgd" ∧ optim ≠ "rmsprop") :
    (mainTrace optim resume evaluate).2 = some ("Unsupported optim: " ++ optim) ∧
    MainEvent.initDataset ∈ (mainTrace optim resume evaluate).1 ∧
    MainEvent.loadCheckpoint ∉ (mainTrace optim resume evaluate).1 ∧
    MainEvent.runEvaluation ∉ (mainTrace optim resume evaluate).1 ∧
    MainEvent.runTrainLoop ∉ (mainTrace optim resume evaluate).1 := by
  obtain ⟨h1, h2, h3⟩ := h
  have hopt : init_optim optim = Except.error ("Unsupported optim: " ++ optim) := by
    unfold init_optim
    rw [if_neg h1, if_neg h2, if_neg h3]
  have htr : mainTrace optim resume evaluate =
      ([.initDataset, .buildTrainLoader, .buildQueryLoader, .buildGalleryLoader,
        .initModel, .initCriteria], some ("Unsupported optim: " ++ optim)) := by
    unfold mainTrace
    rw [hopt]
  rw [htr]
  refine ⟨rfl, ?_, ?_, ?_, ?_⟩ <;> simp

/-- Witness for C2 (amended) at the concrete invalid name `"foo"`. -/
theorem invalid_optim_fails_before_training_witness :
    (("foo" : String) ≠ "adam" ∧ ("foo" : String) ≠ "sgd" ∧
      ("foo" : String) ≠ "rmsprop") ∧
    ((mainTrace "foo" true true).2 = some ("Unsupported optim: " ++ "foo") ∧
     MainEvent.initDataset ∈ (mainTrace "foo" true true).1 ∧
     MainEvent.loadCheckpoint ∉ (mainTrace "foo" true true).1 ∧
     MainEvent.runEvaluation ∉ (mainTrace "foo" true true).1 ∧
     MainEvent.runTrainLoop ∉ (mainTrace "foo" true true).1) :=
  ⟨by decide, invalid_optim_fails_before_training "foo" true true (by decide)⟩

/-- One persisted checkpoint record (qan.py:211-215).  `savedEpoch` is the
`'epoch'` field, which the code sets to the 0-based index `epoch` of the
just-finished epoch; `fileEpoch` is the `epoch+1` used in the checkpoint's
filename `checkpoint_ep{epoch+1}.pth.tar`. -/
structure Checkpoint where
  savedEpoch : ℕ
  rank1 : ℚ
  isBest : Bool
  fileEpoch : ℕ
deriving DecidableEq

/-- The mutable state of the training loop in `main` (qan.py:186-215):
`best_rank1` (initialized to `-np.inf`, modelled as `⊥ : WithBot ℚ`),
`best_epoch`, and the list of checkpoints persisted so far. -/
structure LoopState where
  bestRank1 : WithBot ℚ
  bestEpoch : ℕ
  checkpoints : List Checkpoint
deriving DecidableEq

/-- Initial state `best_rank1 = -np.inf; best_epoch = 0` (qan.py:188-189), no checkpoint
written yet. -/
def initState : LoopState := ⟨⊥, 0, []⟩

/-- The evaluation trigger (qan.py:199): Python's
`args.eval_step > 0 and (epoch+1) % args.eval_step == 0 or (epoch+1) == args.max_epoch`
parses as `(A and B) or C`. -/
def evalCond (evalStep : ℤ) (maxEpoch e : ℕ) : Prop :=
  (0 < evalStep ∧ ((e : ℤ) + 1) % evalStep = 0) ∨ (e + 1 = maxEpoch)

instance (evalStep : ℤ) (maxEpoch e : ℕ) :
    Decidable (evalCond evalStep maxEpoch e) := by
  unfold evalCond
  infer_instance

/-- The body of one iteration of the epoch loop (qan.py:199-215), with the
training step abstracted away (it does not touch this state) and the value
returned by `test` supplied by the oracle `rank1At`: when the trigger fires,
run the evaluation, set `is_best = rank1 > best_rank1`, update the best record
on strict improvement, and persist a checkpoint storing `'epoch': epoch` and
marked with `is_best`. -/
def epochBody (evalStep : ℤ) (maxEpoch : ℕ) (rank1At : ℕ → ℚ)
    (st : LoopState) (e : ℕ) : LoopState :=
  if evalCond evalStep maxEpoch e then
    let rank1 := rank1At e
    let isBest : Bool := decide (st.bestRank1 < (rank1 : WithBot ℚ))
    { bestRank1 := if isBest then (rank1 : WithBot ℚ) else st.bestRank1
      bestEpoch := if isBest then e + 1 else st.bestEpoch
      checkpoints := st.checkpoints ++ [⟨e, rank1, isBest, e + 1⟩] }
  else st

/-- The epoch range `for epoch in range(start_epoch, args.max_epoch)` (qan.py:192). -/
def epochsRun (startEpoch maxEpoch : ℕ) : List ℕ :=
  List.range' startEpoch (maxEpoch - startEpoch)

/-- The whole epoch loop (qan.py:192-215) as a fold of `epochBody` over the
epochs run. -/
def trainLoop (evalStep : ℤ) (maxEpoch : ℕ) (rank1At : ℕ → ℚ)
    (startEpoch : ℕ) (st : LoopState) : LoopState :=
  (epochsRun startEpoch maxEpoch).foldl (epochBody evalStep maxEpoch rank1At) st

/-- Resume assignment `start_epoch = checkpoint['epoch']` (qan.py:176). -/
def resumeStartEpoch (c : Checkpoint) : ℕ := c.savedEpoch

/-- C6: in the training loop, evaluation (observable through the checkpoint it
persists) runs after epoch `e` (0-based) iff `eval_step > 0` and `e+1` is
divisible by `eval_step`, or `e+1` equals `max_epoch`; whenever it runs, a
checkpoint is persisted marked `is_best = rank1 > best_rank1`, and the
best-so-far record is updated exactly when the returned rank-1 strictly
exceeds the previous best. -/
theorem eval_schedule_and_best_update (evalStep : ℤ) (maxEpoch : ℕ)
    (rank1At : ℕ → ℚ) (st : LoopState) (e : ℕ) :
    ((epochBody evalStep maxEpoch rank1At st e).checkpoints ≠ st.checkpoints ↔
      ((0 < evalStep ∧ ((e : ℤ) + 1) % evalStep = 0) ∨ e + 1 = maxEpoch)) ∧
    (¬ evalCond evalStep maxEpoch e →
      epochBody evalStep maxEpoch rank1At st e = st) ∧
    (evalCond evalStep maxEpoch e →
      (epochBody evalStep maxEpoch rank1At st e).checkpoints =
        st.checkpoints ++
          [⟨e, rank1At e, decide (st.bestRank1 < (rank1At e : WithBot ℚ)), e + 1⟩] ∧
      (st.bestRank1 < (rank1At e : WithBot ℚ) →
        (epochBody evalStep maxEpoch rank1At st e).bestRank1 = (rank1At e : WithBot ℚ) ∧
        (epochBody evalStep maxEpoch rank1At st e).bestEpoch = e + 1) ∧
      (¬ st.bestRank1 < (rank1At e : WithBot ℚ) →
        (epochBody evalStep maxEpoch rank1At st e).bestRank1 = st.bestRank1 ∧
        (epochBody evalStep maxEpoch rank1At st e).bestEpoch = st.bestEpoch)) := by
  by_cases hc : evalCond evalStep maxEpoch e
  · refine ⟨⟨fun _ => hc, fun _ => ?_⟩, fun h => absurd hc h, fun _ => ⟨?_, ?_, ?_⟩⟩
    · simp only [epochBody, if_pos hc]
      intro hEq
      have hlen := congrArg List.length hEq
      simp only [List.length_append, List.length_cons, List.length_nil] at hlen
      omega
    · simp [epochBody, if_pos hc]
    · intro hlt
      have hb : decide (st.bestRank1 < (rank1At e : WithBot ℚ)) = true :=
        decide_eq_true hlt
      constructor <;> simp [epochBody, if_pos hc, hb]
    · intro hlt
      have hb : decide (st.bestRank1 < (rank1At e : WithBot ℚ)) = false :=
        decide_eq_false hlt
      constructor <;> simp [epochBody, if_pos hc, hb]
  · have hbody : epochBody evalStep maxEpoch rank1At st e = st := by
      simp [epochBody, if_neg hc]
    exact ⟨⟨fun hne => absurd (by rw [hbody]) hne, fun h => absurd h hc⟩,
      fun _ => hbody, fun h => absurd h hc⟩

/-- Witness for C6 with `eval_step = 1`, `max_epoch = 1`, rank-1 oracle
constantly `1`, the initial loop state, and epoch `0` (where the trigger
fires). -/
theorem eval_schedule_and_best_update_witness :
    evalCond 1 1 0 ∧
    ((epochBody 1 1 (fun _ => (1 : ℚ)) initState 0).checkpoints =
        initState.checkpoints ++
          [⟨0, (1 : ℚ), decide (initState.bestRank1 < ((1 : ℚ) : WithBot ℚ)), 1⟩] ∧
      (initState.bestRank1 < ((1 : ℚ) : WithBot ℚ) →
        (epochBody 1 1 (fun _ => (1 : ℚ)) initState 0).bestRank1 = ((1 : ℚ) : WithBot ℚ) ∧
        (epochBody 1 1 (fun _ => (1 : ℚ)) initState 0).bestEpoch = 1) ∧
      (¬ initState.bestRank1 < ((1 : ℚ) : WithBot ℚ) →
        (epochBody 1 1 (fun _ => (1 : ℚ)) initState 0).bestRank1 = initState.bestRank1 ∧
        (epochBody 1 1 (fun _ => (1 : ℚ)) initState 0).bestEpoch = initState.bestEpoch)) :=
  ⟨by decide,
   (eval_schedule_and_best_update 1 1 (fun _ => (1 : ℚ)) initState 0).2.2 (by decide)⟩

lemma epochBody_checkpoints_cons (evalStep : ℤ) (maxEpoch : ℕ)
    (rank1At : ℕ → ℚ) (st : LoopState) (e : ℕ) (c : Checkpoint)
    (cs : List Checkpoint) (h : st.checkpoints = c :: cs) :
    ∃ cs', (epochBody evalStep maxEpoch rank1At st e).checkpoints = c :: cs' := by
  by_cases hc : evalCond evalStep maxEpoch e
  · refine ⟨cs ++ [⟨e, rank1At e, decide (st.bestRank1 < (rank1At e : WithBot ℚ)), e + 1⟩], ?_⟩
    simp [epochBody, if_pos hc, h]
  · exact ⟨cs, by simp [epochBody, if_neg hc, h]⟩

lemma foldl_checkpoints_head (evalStep : ℤ) (maxEpoch : ℕ) (rank1At : ℕ → ℚ) :
    ∀ (l : List ℕ) (st : LoopState) (c : Checkpoint) (cs : List Checkpoint),
      st.checkpoints = c :: cs →
      ∃ cs', ((l.foldl (epochBody evalStep maxEpoch rank1At) st).checkpoints = c :: cs') := by
  intro l
  induction l with
  | nil => exact fun st c cs h => ⟨cs, h⟩
  | cons e l ih =>
      intro st c cs h
      obtain ⟨cs', h'⟩ := epochBody_checkpoints_cons evalStep maxEpoch rank1At st e c cs h
      rw [List.foldl_cons]
      exact ih _ c cs' h'

lemma first_checkpoint_isBest (evalStep : ℤ) (maxEpoch : ℕ) (rank1At : ℕ → ℚ) :
    ∀ (l : List ℕ) (st : LoopState), st.checkpoints = [] → st.bestRank1 = ⊥ →
      ∀ c rest, (l.foldl (epochBody evalStep maxEpoch rank1At) st).checkpoints = c :: rest →
      c.isBest = true := by
  intro l
  induction l with
  | nil =>
      intro st h0 _ c rest hcheck
      rw [List.foldl_nil, h0] at hcheck
      exact absurd hcheck (by simp)
  | cons e l ih =>
      intro st h0 hbot c rest hcheck
      rw [List.foldl_cons] at hcheck
      by_cases hc : evalCond evalStep maxEpoch e
      · have hbody : (epochBody evalStep maxEpoch rank1At st e).checkpoints =
            ⟨e, rank1At e, decide (st.bestRank1 < (rank1At e : WithBot ℚ)), e + 1⟩ :: [] := by
          simp [epochBody, if_pos hc, h0]
        obtain ⟨cs', h'⟩ := foldl_checkpoints_head evalStep maxEpoch rank1At l _ _ [] hbody
        rw [h'] at hcheck
        have hcc : c = ⟨e, rank1At e, decide (st.bestRank1 < (rank1At e : WithBot ℚ)), e + 1⟩ :=
          (List.cons.injEq _ _ _ _ ▸ hcheck.symm).1
        rw [hcc]
        show decide (st.bestRank1 < (rank1At e : WithBot ℚ)) = true
        rw [hbot]
        exact decide_eq_true (WithBot.bot_lt_coe _)
      · have hbody : epochBody evalStep maxEpoch rank1At st e = st := by
          simp [epochBody, if_neg hc]
        rw [hbody] at hcheck
        exact ih st h0 hbot c rest hcheck

/-- C10: `best_rank1` is initialized to `-∞` (`⊥`) and updated only on strict
improvement: the first checkpoint of any training run started from the initial
state is marked best, and an evaluation whose rank-1 ties the current best
leaves the best record unchanged and writes a checkpoint not marked best. -/
theorem best_rank1_init_first_eval_and_ties (evalStep : ℤ) (maxEpoch : ℕ)
    (rank1At : ℕ → ℚ) (startEpoch : ℕ) :
    initState.bestRank1 = ⊥ ∧
    (∀ c rest,
      (trainLoop evalStep maxEpoch rank1At startEpoch initState).checkpoints = c :: rest →
      c.isBest = true) ∧
    (∀ (st : LoopState) (e : ℕ) (r : ℚ), evalCond evalStep maxEpoch e →
      st.bestRank1 = (r : WithBot ℚ) → rank1At e = r →
      (epochBody evalStep maxEpoch rank1At st e).bestRank1 = st.bestRank1 ∧
      (epochBody evalStep maxEpoch rank1At st e).bestEpoch = st.bestEpoch ∧
      (epochBody evalStep maxEpoch rank1At st e).checkpoints =
        st.checkpoints ++ [⟨e, r, false, e + 1⟩]) := by
  refine ⟨rfl, ?_, ?_⟩
  · intro c rest h
    exact first_checkpoint_isBest evalStep maxEpoch rank1At
      (epochsRun startEpoch maxEpoch) initState rfl rfl c rest h
  · intro st e r hc hbest hrank
    have hb : decide (st.bestRank1 < (r : WithBot ℚ)) = false := by
      rw [hbest]
      exact decide_eq_false (lt_irrefl _)
    refine ⟨?_, ?_, ?_⟩ <;> simp [epochBody, if_pos hc, hrank, hb]

/-- Witness for C10: a one-epoch run from the initial state whose single
checkpoint is marked best, and a tying evaluation from a state whose best is
already `1`. -/
theorem best_rank1_init_first_eval_and_ties_witness :
    ((trainLoop 1 1 (fun _ => (1 : ℚ)) 0 initState).checkpoints =
        Checkpoint.mk 0 1 true 1 :: [] ∧ (Checkpoint.mk 0 1 true 1).isBest = true) ∧
    (evalCond 1 1 0 ∧
     (LoopState.mk ((1 : ℚ) : WithBot ℚ) 5 []).bestRank1 = ((1 : ℚ) : WithBot ℚ) ∧
     ((epochBody 1 1 (fun _ => (1 : ℚ)) (LoopState.mk ((1 : ℚ) : WithBot ℚ) 5 []) 0).bestRank1 =
        (LoopState.mk ((1 : ℚ) : WithBot ℚ) 5 []).bestRank1 ∧
      (epochBody 1 1 (fun _ => (1 : ℚ)) (LoopState.mk ((1 : ℚ) : WithBot ℚ) 5 []) 0).bestEpoch =
        (LoopState.mk ((1 : ℚ) : WithBot ℚ) 5 []).bestEpoch ∧
      (epochBody 1 1 (fun _ => (1 : ℚ)) (LoopState.mk ((1 : ℚ) : WithBot ℚ) 5 []) 0).checkpoints =
        (LoopState.mk ((1 : ℚ) : WithBot ℚ) 5 []).checkpoints ++ [⟨0, 1, false, 1⟩])) :=
  ⟨⟨by decide,
    (best_rank1_init_first_eval_and_ties 1 1 (fun _ => (1 : ℚ)) 0).2.1
      (Checkpoint.mk 0 1 true 1) [] (by decide)⟩,
   by decide, rfl,
   (best_rank1_init_first_eval_and_ties 1 1 (fun _ => (1 : ℚ)) 0).2.2
     (LoopState.mk ((1 : ℚ) : WithBot ℚ) 5 []) 0 1 (by decide) rfl rfl⟩

/-- C3 fails on the code: `save_checkpoint` stores `'epoch': epoch` (the
0-based index of the just-finished epoch, although the checkpoint file is named
`checkpoint_ep{epoch+1}`), and resume sets `start_epoch = checkpoint['epoch']`.
Training 2 epochs (`max_epoch = 2`, epochs 0 and 1) saves a final checkpoint
with `'epoch' = 1`; resuming from it restarts the loop at epoch 1, so
continuing for one more epoch re-runs epoch 1: the epochs processed across both
runs are `[0, 1, 1]`, epoch 2 is never run, and the epoch counter cannot reach
3. -/
theorem resume_repeats_last_epoch :
    (trainLoop 50 2 (fun _ => (1 : ℚ)) 0 initState).checkpoints =
      [Checkpoint.mk 1 1 true 2] ∧
    resumeStartEpoch (Checkpoint.mk 1 1 true 2) = 1 ∧
    epochsRun (resumeStartEpoch (Checkpoint.mk 1 1 true 2)) 2 = [1] ∧
    epochsRun 0 2 ++ epochsRun (resumeStartEpoch (Checkpoint.mk 1 1 true 2)) 2 =
      [0, 1, 1] ∧
    2 ∉ epochsRun 0 2 ++ epochsRun (resumeStartEpoch (Checkpoint.mk 1 1 true 2)) 2 := by
  decide

end QanPy
